import Mathlib

/-!
Shallow embedding of the well-plate designer core of src/app.js (class
PlateMasterPro, second copy, lines 1265-2998): the scientific-notation
parser, the layout allocator with its capacity pre-check, row-major well
naming, the Fisher-Yates randomizer, and the dilution calculator.

JavaScript numbers are modelled by `JSNum`: NaN, the two infinities, and
finite values as exact rationals.  Finite arithmetic is modelled exactly
(no rounding); overflow past the largest finite double is modelled by
comparison against `maxDouble`, the exact value of IEEE-754 DBL_MAX.  The
claims settled here only involve magnitudes where rounding is irrelevant,
while overflow to Infinity is load-bearing and is modelled faithfully.
-/

namespace WellPlates

/-- A JavaScript number: NaN, the two infinities, or a finite value. -/
inductive JSNum where
  | nan
  | inf
  | neginf
  | num (q : ℚ)
deriving DecidableEq, Repr

/-- JS isNaN on a number. -/
def JSNum.isNaN : JSNum → Bool
  | .nan => true
  | _ => false

/-- DBL_MAX, the largest finite IEEE-754 double, as an exact rational. -/
def maxDouble : ℚ := 17976931348623157 * 10 ^ 292

/-- Exactly-computed value clamped to the double range: magnitudes beyond
DBL_MAX overflow to the infinities, as JS arithmetic does. -/
def finishNum (q : ℚ) : JSNum :=
  if q > maxDouble then .inf else if q < -maxDouble then .neginf else .num q

/-- JS `<=` on numbers: false whenever either side is NaN. -/
def jsLe : JSNum → JSNum → Bool
  | .nan, _ => false
  | _, .nan => false
  | .neginf, _ => true
  | .inf, .inf => true
  | .inf, _ => false
  | .num _, .inf => true
  | .num _, .neginf => false
  | .num a, .num b => decide (a ≤ b)

/-- JS multiplication.  Finite values multiply exactly; rounding and
overflow of finite arithmetic results are not modelled (no claim
exercises arithmetic near the double range — overflow matters only at
parsing, where finishNum applies). -/
def jsMul : JSNum → JSNum → JSNum
  | .nan, _ => .nan
  | _, .nan => .nan
  | .inf, .inf => .inf
  | .inf, .neginf => .neginf
  | .neginf, .inf => .neginf
  | .neginf, .neginf => .inf
  | .inf, .num q => if q > 0 then .inf else if q < 0 then .neginf else .nan
  | .num q, .inf => if q > 0 then .inf else if q < 0 then .neginf else .nan
  | .neginf, .num q => if q > 0 then .neginf else if q < 0 then .inf else .nan
  | .num q, .neginf => if q > 0 then .neginf else if q < 0 then .inf else .nan
  | .num a, .num b => .num (a * b)

/-- JS subtraction (finite values exact, as for jsMul). -/
def jsSub : JSNum → JSNum → JSNum
  | .nan, _ => .nan
  | _, .nan => .nan
  | .inf, .inf => .nan
  | .neginf, .neginf => .nan
  | .inf, _ => .inf
  | .neginf, _ => .neginf
  | .num _, .inf => .neginf
  | .num _, .neginf => .inf
  | .num a, .num b => .num (a - b)

/-- JS division (finite values exact, as for jsMul; division by zero
gives the signed infinities as in JS, with 0/0 = NaN; signed zeros are
not distinguished). -/
def jsDiv : JSNum → JSNum → JSNum
  | .nan, _ => .nan
  | _, .nan => .nan
  | .inf, .inf => .nan
  | .inf, .neginf => .nan
  | .neginf, .inf => .nan
  | .neginf, .neginf => .nan
  | .inf, .num q => if q < 0 then .neginf else .inf
  | .neginf, .num q => if q < 0 then .inf else .neginf
  | .num _, .inf => .num 0
  | .num _, .neginf => .num 0
  | .num a, .num b =>
    if b = 0 then (if a > 0 then .inf else if a < 0 then .neginf else .nan)
    else .num (a / b)

/-! ### Scientific-notation parser (src/app.js 1450-1483)

The scanning of the input string is kept separate from the numeric
semantics: the scanners below return signs, digit lists and exponents
(all with kernel-computable equality), and `ratVal` interprets a scanned
shape as an exact rational. -/

/-- JS whitespace, restricted to the ASCII characters (the inputs of
interest are ASCII apart from the multiplication sign). -/
def isJsWs (c : Char) : Bool :=
  c == ' ' || c == '\t' || c == '\n' || c == '\r' || c == '\x0b' || c == '\x0c'

/-- JS String.trim: strip leading and trailing whitespace. -/
def trimWs (cs : List Char) : List Char :=
  ((cs.dropWhile isJsWs).reverse.dropWhile isJsWs).reverse

/-- The two sequential replacements of the source: the multiplication sign
becomes an asterisk, then every caret becomes a double asterisk.  Neither
replacement can produce the other's pattern, so one pass suffices. -/
def replXCaret (c : Char) : List Char :=
  if c = '×' then ['*'] else if c = '^' then ['*', '*'] else [c]

/-- The cleaning pipeline of parseScientificInput: trim, replace the
multiplication sign and the caret, delete all whitespace, lower-case. -/
def cleanChars (cs : List Char) : List Char :=
  (((trimWs cs).flatMap replXCaret).filter (fun c => !(isJsWs c))).map Char.toLower

/-- Decimal digits to a natural number (most significant first). -/
def digitsToNat (ds : List Char) : Nat :=
  ds.foldl (fun n c => 10 * n + (c.toNat - 48)) 0

/-- Scan a signed decimal prefix `[+|-] digits [. digits]`, returning the
sign (true = nonnegative), integer digits, fraction digits and the unread
rest; none when there is no digit at all. -/
def scanDec (cs : List Char) : Option (Bool × List Char × List Char × List Char) :=
  let (pos, r0) : Bool × List Char :=
    match cs with
    | '+' :: r => (true, r)
    | '-' :: r => (false, r)
    | r => (true, r)
  let ip := r0.takeWhile Char.isDigit
  let r1 := r0.dropWhile Char.isDigit
  let (fp, r2) : List Char × List Char :=
    match r1 with
    | '.' :: r => (r.takeWhile Char.isDigit, r.dropWhile Char.isDigit)
    | r => ([], r)
  if ip.isEmpty && fp.isEmpty then none else some (pos, ip, fp, r2)

/-- Scan the JS parseFloat grammar on a cleaned character list: a signed
decimal, then an optional exponent part that is only consumed when at
least one exponent digit follows.  Trailing characters are ignored, as
parseFloat reads the longest valid prefix. -/
def scanFloat (cs : List Char) : Option (Bool × List Char × List Char × Int) :=
  match scanDec cs with
  | none => none
  | some (pos, ip, fp, rest) =>
    let ex : Int :=
      match rest with
      | 'e' :: r =>
        let (esgn, r3) : Int × List Char :=
          match r with
          | '+' :: rr => (1, rr)
          | '-' :: rr => (-1, rr)
          | rr => (1, rr)
        let ed := r3.takeWhile Char.isDigit
        if ed.isEmpty then 0 else esgn * (digitsToNat ed : Int)
      | _ => 0
    some (pos, ip, fp, ex)

/-- The exact value of a scanned number: sign times `ip.fp` times 10^ex. -/
def ratVal (pos : Bool) (ip fp : List Char) (ex : Int) : ℚ :=
  (if pos then 1 else -1) *
    ((digitsToNat ip : ℚ) + (digitsToNat fp : ℚ) / (10 : ℚ) ^ fp.length) * (10 : ℚ) ^ ex

/-- JS parseFloat on a cleaned (lower-case, whitespace-free) character
list; NaN when there is no leading digit at all.  (The literal "Infinity"
needs a capital I, which the lower-casing rules out, so it is not
modelled.)  Note that the overflow clamp of `finishNum` applies — this
models parseFloat itself returning Infinity, which the exponential branch
of the source passes through unchecked. -/
def jsParseFloat (cs : List Char) : JSNum :=
  match scanFloat cs with
  | none => .nan
  | some (pos, ip, fp, ex) => finishNum (ratVal pos ip fp ex)

/-- A full-string signed integer exponent `[+|-] digits`; none when there
is no digit or when characters remain after the digits. -/
def expPart (cs : List Char) : Option Int :=
  let (esgn, r0) : Int × List Char :=
    match cs with
    | '+' :: r => (1, r)
    | '-' :: r => (-1, r)
    | r => (1, r)
  let ed := r0.takeWhile Char.isDigit
  let r1 := r0.dropWhile Char.isDigit
  if ed.isEmpty || !r1.isEmpty then none else some (esgn * (digitsToNat ed : Int))

/-- Scan the shapes that power-of-ten notation produces after cleaning:
`[mantissa *] 10 ** [sign] digits`, the whole string.  The bare form
`10 ** e` is recorded as mantissa 1 with exponent e. -/
def scanPower (cs : List Char) : Option (Bool × List Char × List Char × Int) :=
  match scanDec cs with
  | some (pos, ip, fp, '*' :: '1' :: '0' :: '*' :: '*' :: rest) =>
    (expPart rest).map (fun e => (pos, ip, fp, e))
  | _ =>
    match cs with
    | '1' :: '0' :: '*' :: '*' :: rest => (expPart rest).map (fun e => (true, ['1'], [], e))
    | _ => none

/-- Models the source's dynamic evaluation of the cleaned input when it
contains "10**" (Function eval at src/app.js 1469), restricted to the
shapes power-of-ten notation actually produces, evaluated exactly and
followed by the source's isFinite check, which maps overflow to NaN.  Any
other string reaching the dynamic evaluator is mapped to NaN here; that is
a modelling restriction (no claim in this development depends on such
inputs, and a thrown evaluation error is caught and mapped to NaN by the
source as well). -/
def evalPower (cs : List Char) : JSNum :=
  match scanPower cs with
  | none => .nan
  | some (pos, ip, fp, ex) =>
    let v := ratVal pos ip fp ex
    if v > maxDouble || v < -maxDouble then .nan else .num v

/-- Does `pat` occur at the head of the list? -/
def runAt : List Char → List Char → Bool
  | [], _ => true
  | _ :: _, [] => false
  | p :: ps, c :: cs => p == c && runAt ps cs

/-- Does `pat` occur contiguously anywhere in the list (JS includes)? -/
def hasRun (pat : List Char) : List Char → Bool
  | [] => pat.isEmpty
  | c :: rest => runAt pat (c :: rest) || hasRun pat rest

/-- src/app.js 1450-1483 (parseScientificInput): reject empty input, clean
the string, then three branches — exponential form straight through
parseFloat (note: no finiteness check on this branch), power-of-ten form
through the dynamic evaluator with its isFinite check, and plain
parseFloat as the fallback (returning NaN when it fails). -/
def parseScientificInput (s : String) : JSNum :=
  if s.data.isEmpty then .nan
  else
    let clean := cleanChars s.data
    if clean.contains 'e' then jsParseFloat clean
    else if hasRun ['1', '0', '*', '*'] clean then evalPower clean
    else jsParseFloat clean

/-! ### Plate formats and layout entries (src/app.js 1268-1313) -/

/-- A plate format.  The surface area and volumes are carried in tenths /
thousandths of their printed units so that the catalog stays within
kernel-computable numbers; no claim uses them. -/
structure PlateConfig where
  rows : Nat
  cols : Nat
  rowLabels : List String
  surfaceAreaTenthsCm2 : Nat
  maxVolumeUL : Nat
  workingVolumeUL : Nat
deriving DecidableEq, Repr

def plate6 : PlateConfig :=
  { rows := 2, cols := 3, rowLabels := ["A", "B"],
    surfaceAreaTenthsCm2 := 96, maxVolumeUL := 3500, workingVolumeUL := 2500 }

def plate12 : PlateConfig :=
  { rows := 3, cols := 4, rowLabels := ["A", "B", "C"],
    surfaceAreaTenthsCm2 := 38, maxVolumeUL := 2200, workingVolumeUL := 1500 }

def plate24 : PlateConfig :=
  { rows := 4, cols := 6, rowLabels := ["A", "B", "C", "D"],
    surfaceAreaTenthsCm2 := 19, maxVolumeUL := 1000, workingVolumeUL := 750 }

def plate48 : PlateConfig :=
  { rows := 6, cols := 8, rowLabels := ["A", "B", "C", "D", "E", "F"],
    surfaceAreaTenthsCm2 := 8, maxVolumeUL := 500, workingVolumeUL := 350 }

def plate96 : PlateConfig :=
  { rows := 8, cols := 12, rowLabels := ["A", "B", "C", "D", "E", "F", "G", "H"],
    surfaceAreaTenthsCm2 := 3, maxVolumeUL := 360, workingVolumeUL := 200 }

/-- The 384-well format; its row labels are generated in the source as the
sixteen letters from char code 65, written out literally here. -/
def plate384 : PlateConfig :=
  { rows := 16, cols := 24,
    rowLabels := ["A", "B", "C", "D", "E", "F", "G", "H",
                  "I", "J", "K", "L", "M", "N", "O", "P"],
    surfaceAreaTenthsCm2 := 1, maxVolumeUL := 80, workingVolumeUL := 50 }

/-- The fixed, immutable plate catalog (src/app.js 1268-1305). -/
def plateCatalog : List PlateConfig :=
  [plate6, plate12, plate24, plate48, plate96, plate384]

def bacterialColors : List String :=
  ["#2563eb", "#dc2626", "#16a34a", "#ca8a04", "#9333ea", "#ef4444", "#0891b2", "#be185d"]

def cellColors : List String :=
  ["#3b82f6", "#ef4444", "#10b981", "#f59e0b", "#8b5cf6", "#06b6d4", "#84cc16", "#f97316"]

def antimicrobialColors : List String :=
  ["#1e40af", "#7f1d1d", "#166534", "#92400e", "#581c87", "#155e75", "#365314", "#9a3412"]

def defaultColors : List String :=
  ["#2563eb", "#dc2626", "#16a34a", "#ca8a04", "#9333ea", "#c2410c", "#0891b2", "#be185d"]

/-- One well assignment of a layout (src/app.js entries pushed onto
currentLayout).  `type` is one of "experimental", "control", "blank". -/
structure LayoutEntry where
  group : String
  timepoint : String
  bioReplicate : Nat
  techReplicate : Nat
  well : String
  type : String
  color : String
deriving DecidableEq, Repr

/-- src/app.js 1685-1689: row letter by integer division, 1-based column.
An out-of-range row index renders as "undefined" in a JS template string;
modelled by getD with that default. -/
def getWellName (index : Nat) (config : PlateConfig) : String :=
  config.rowLabels.getD (index / config.cols) "undefined"
    ++ toString (index % config.cols + 1)

/-! ### The allocator (src/app.js 1524-1683)

Each push in the source is guarded by `wellIndex < rows*cols` and bumps
the shared wellIndex.  The nested forEach / for loops enumerate their
tuples in lexicographic order, so each block is rendered as the fold of
guarded pushes over that tuple order; the entry built at each tuple is a
function of the well index at push time. -/

/-- One guarded push:
`if (wellIndex < rows*cols) { push(entry(wellIndex)); wellIndex++ }`. -/
def pushGuard (cap : Nat) (mk : Nat → LayoutEntry) :
    List LayoutEntry × Nat → List LayoutEntry × Nat
  | (acc, w) => if w < cap then (acc ++ [mk w], w + 1) else (acc, w)

/-- Fold the guarded pushes over a list of entry makers. -/
def pushAll (cap : Nat) (mks : List (Nat → LayoutEntry))
    (s : List LayoutEntry × Nat) : List LayoutEntry × Nat :=
  mks.foldl (fun t mk => pushGuard cap mk t) s

/-- The experimental block (src/app.js 1585-1606): groups (with their
index, which selects the palette color) × timepoints × bioReplicate 1..B ×
techReplicate 1..T.  The color written on each entry is the one the source
just assigned to currentColors[group], i.e. colors[groupIndex mod len]. -/
def expMakers (groups timepoints : List String) (B T : Nat)
    (colors : List String) (config : PlateConfig) : List (Nat → LayoutEntry) :=
  groups.enum.flatMap fun g =>
    timepoints.flatMap fun tp =>
      (List.range B).flatMap fun b =>
        (List.range T).map fun t =>
          fun w =>
            { group := g.2, timepoint := tp, bioReplicate := b + 1,
              techReplicate := t + 1, well := getWellName w config,
              type := "experimental",
              color := colors.getD (g.1 % colors.length) "" }

/-- The control block (src/app.js 1609-1646): per timepoint × bioReplicate
× techReplicate, a positive-control push immediately followed by a
negative-control push, each with its own guard and fixed color. -/
def ctrlMakers (timepoints : List String) (B T : Nat)
    (config : PlateConfig) : List (Nat → LayoutEntry) :=
  timepoints.flatMap fun tp =>
    (List.range B).flatMap fun b =>
      (List.range T).flatMap fun t =>
        [fun w =>
          { group := "Positive Control", timepoint := tp, bioReplicate := b + 1,
            techReplicate := t + 1, well := getWellName w config,
            type := "control", color := "#f59e0b" },
         fun w =>
          { group := "Negative Control", timepoint := tp, bioReplicate := b + 1,
            techReplicate := t + 1, well := getWellName w config,
            type := "control", color := "#6b7280" }]

/-- The blank block (src/app.js 1649-1668): per timepoint × techReplicate,
with bioReplicate fixed to 1 and a fixed color. -/
def blankMakers (timepoints : List String) (T : Nat)
    (config : PlateConfig) : List (Nat → LayoutEntry) :=
  timepoints.flatMap fun tp =>
    (List.range T).map fun t =>
      fun w =>
        { group := "Blank", timepoint := tp, bioReplicate := 1,
          techReplicate := t + 1, well := getWellName w config,
          type := "blank", color := "#06b6d4" }

/-- src/app.js 1575-1683 without the trailing randomize branch (modelled
separately by randomizeLayout, applied by generateLayout below) and
without the display calls: the three blocks of guarded pushes, starting
from the empty layout at well index 0. -/
def generatePlateLayout (groups timepoints : List String) (B T : Nat)
    (config : PlateConfig) (includeControls includeBlanks : Bool)
    (colors : List String) : List LayoutEntry :=
  (pushAll (config.rows * config.cols)
    (expMakers groups timepoints B T colors config
      ++ (if includeControls then ctrlMakers timepoints B T config else [])
      ++ (if includeBlanks then blankMakers timepoints T config else []))
    ([], 0)).1

/-! ### Randomization (src/app.js 1691-1703) -/

/-- Swap the values at two positions of a list (both reads from the
original list, as the JS destructuring assignment does). -/
def swapL (l : List α) (i j : Nat) : List α :=
  if h : i < l.length ∧ j < l.length then
    (l.set i (l.get ⟨j, h.2⟩)).set j (l.get ⟨i, h.1⟩)
  else l

/-- The Fisher-Yates loop, counting i down; `js i` models the drawn index
Math.floor(Math.random() * (i+1)), which always lies in 0..i. -/
def fyAux (js : Nat → Nat) : List α → Nat → List α
  | l, 0 => l
  | l, i + 1 => fyAux js (swapL l (i + 1) (js (i + 1))) i

/-- Fisher-Yates shuffle: for i from length-1 down to 1, swap positions i
and js i. -/
def fisherYates (js : Nat → Nat) (l : List α) : List α :=
  fyAux js l (l.length - 1)

/-- src/app.js 1691-1703: extract the well labels, shuffle them, and write
them back onto the entries in their original order (the two lists always
have the same length, so the zip loses nothing). -/
def randomizeLayout (layout : List LayoutEntry) (js : Nat → Nat) : List LayoutEntry :=
  List.zipWith (fun e w => { e with well := w }) layout
    (fisherYates js (layout.map (fun e => e.well)))

/-! ### Layout generation entry point (src/app.js 1524-1573) -/

inductive LayoutError where
  | missingGroups
  | missingTimepoints
  | capacityExceeded (required available : Nat)
deriving DecidableEq, Repr

/-- The required-well count of src/app.js 1546-1555: experimental wells,
plus two control wells per timepoint × bioReplicate × techReplicate when
controls are requested, plus one blank per timepoint × techReplicate when
blanks are requested. -/
def requiredWells (groups timepoints : List String) (B T : Nat)
    (includeControls includeBlanks : Bool) : Nat :=
  groups.length * timepoints.length * B * T
    + (if includeControls then timepoints.length * B * T * 2 else 0)
    + (if includeBlanks then timepoints.length * T else 0)

/-- src/app.js 1524-1573: the two validation guards, the capacity
pre-check, and the call into generatePlateLayout.  The DOM reads, the
notifications and the setTimeout wrapper are presentation glue and are not
modelled; the randomize checkbox applies randomizeLayout to the produced
layout (src/app.js 1671-1673), with js the stream of drawn indices. -/
def generateLayout (groups timepoints : List String) (B T : Nat)
    (config : PlateConfig) (includeControls includeBlanks : Bool)
    (colors : List String) (randomize : Bool) (js : Nat → Nat) :
    Except LayoutError (List LayoutEntry) :=
  if groups.isEmpty then .error .missingGroups
  else if timepoints.isEmpty then .error .missingTimepoints
  else if requiredWells groups timepoints B T includeControls includeBlanks
      > config.rows * config.cols then
    .error (.capacityExceeded
      (requiredWells groups timepoints B T includeControls includeBlanks)
      (config.rows * config.cols))
  else
    .ok (if randomize then
        randomizeLayout (generatePlateLayout groups timepoints B T config
          includeControls includeBlanks colors) js
      else generatePlateLayout groups timepoints B T config
        includeControls includeBlanks colors)

/-! ### Dilution calculator (src/app.js 2299-2327; identical copy 906-939) -/

inductive DilutionError where
  | invalidInput
  | concentrationOrdering
deriving DecidableEq, Repr

structure DilutionResult where
  stockVolume : JSNum
  diluentVolume : JSNum
  dilutionFactor : JSNum
deriving DecidableEq, Repr

/-- src/app.js 2299-2327: parse the three fields, reject NaNs, reject
stock ≤ target, then C1V1 = C2V2: stockVol = target·finalVol/stock,
diluent = finalVol − stockVol, factor = stock/target. -/
def calculateDilution (stockStr targetStr volumeStr : String) :
    Except DilutionError DilutionResult :=
  let stockConc := parseScientificInput stockStr
  let targetConc := parseScientificInput targetStr
  let finalVol := parseScientificInput volumeStr
  if stockConc.isNaN || targetConc.isNaN || finalVol.isNaN then .error .invalidInput
  else if jsLe stockConc targetConc then .error .concentrationOrdering
  else
    let stockVol := jsDiv (jsMul targetConc finalVol) stockConc
    .ok { stockVolume := stockVol,
          diluentVolume := jsSub finalVol stockVol,
          dilutionFactor := jsDiv stockConc targetConc }

/-! ### The spec-side assignment order (spec.md §4.3, for claim C2)

A second definition, following the specification's words rather than the
source, of the order in which (group, timepoint, bioReplicate,
techReplicate, type) data must appear in a successful layout: the
experimental block over groups/timepoints/bioReplicate/techReplicate, then
the control block (positive then negative per combination), then the blank
block with bioReplicate fixed to 1. -/
def specOrder (groups timepoints : List String) (B T : Nat)
    (includeControls includeBlanks : Bool) :
    List (String × String × Nat × Nat × String) :=
  (groups.flatMap fun g =>
    timepoints.flatMap fun tp =>
      (List.range B).flatMap fun b =>
        (List.range T).map fun t => (g, tp, b + 1, t + 1, "experimental"))
  ++ (if includeControls then
        timepoints.flatMap fun tp =>
          (List.range B).flatMap fun b =>
            (List.range T).flatMap fun t =>
              [("Positive Control", tp, b + 1, t + 1, "control"),
               ("Negative Control", tp, b + 1, t + 1, "control")]
      else [])
  ++ (if includeBlanks then
        timepoints.flatMap fun tp =>
          (List.range T).map fun t => ("Blank", tp, 1, t + 1, "blank")
      else [])

/-- The data of an entry compared against the spec-side order. -/
def entryData (e : LayoutEntry) : String × String × Nat × Nat × String :=
  (e.group, e.timepoint, e.bioReplicate, e.techReplicate, e.type)

/-- The full maker list of one allocation, in push order. -/
def allMakers (groups timepoints : List String) (B T : Nat)
    (config : PlateConfig) (includeControls includeBlanks : Bool)
    (colors : List String) : List (Nat → LayoutEntry) :=
  expMakers groups timepoints B T colors config
    ++ (if includeControls then ctrlMakers timepoints B T config else [])
    ++ (if includeBlanks then blankMakers timepoints T config else [])

theorem generatePlateLayout_allMakers (groups timepoints : List String) (B T : Nat)
    (config : PlateConfig) (includeControls includeBlanks : Bool) (colors : List String) :
    generatePlateLayout groups timepoints B T config includeControls includeBlanks colors
      = (pushAll (config.rows * config.cols)
          (allMakers groups timepoints B T config includeControls includeBlanks colors)
          ([], 0)).1 := rfl

/-! ### Helper lemmas: the guarded pushes under the capacity pre-check -/

/-- The entries a run of guarded pushes appends when every guard passes:
the k-th maker receives well index w + k. -/
def applyIdx : Nat → List (Nat → LayoutEntry) → List LayoutEntry
  | _, [] => []
  | w, mk :: rest => mk w :: applyIdx (w + 1) rest

theorem applyIdx_length (mks : List (Nat → LayoutEntry)) :
    ∀ w : Nat, (applyIdx w mks).length = mks.length := by
  induction mks with
  | nil => intro w; rfl
  | cons mk rest ih => intro w; simp [applyIdx, ih]

theorem applyIdx_get (mks : List (Nat → LayoutEntry)) :
    ∀ (w i : Nat) (h : i < (applyIdx w mks).length) (h' : i < mks.length),
      (applyIdx w mks).get ⟨i, h⟩ = mks.get ⟨i, h'⟩ (w + i) := by
  induction mks with
  | nil => intro w i h h'; simp at h'
  | cons mk rest ih =>
    intro w i h h'
    cases i with
    | zero => simp [applyIdx]
    | succ n =>
      have hn : n < (applyIdx (w + 1) rest).length := by
        simpa [applyIdx] using h
      have hn' : n < rest.length := by simpa using h'
      have := ih (w + 1) n hn hn'
      simpa [applyIdx, Nat.add_assoc, Nat.add_comm 1 n] using this

theorem applyIdx_map {β : Type} (f : LayoutEntry → β) (g : (Nat → LayoutEntry) → β)
    (mks : List (Nat → LayoutEntry)) (hconst : ∀ mk ∈ mks, ∀ w, f (mk w) = g mk) :
    ∀ w, (applyIdx w mks).map f = mks.map g := by
  induction mks with
  | nil => intro w; rfl
  | cons mk rest ih =>
    intro w
    have h0 := hconst mk (by simp) w
    have ihr := ih (fun m hm => hconst m (by simp [hm]))
    simp [applyIdx, h0, ihr]

theorem pushAll_eq (cap : Nat) (mks : List (Nat → LayoutEntry)) :
    ∀ (acc : List LayoutEntry) (w : Nat), w + mks.length ≤ cap →
      pushAll cap mks (acc, w) = (acc ++ applyIdx w mks, w + mks.length) := by
  induction mks with
  | nil => intro acc w h; simp [pushAll, applyIdx]
  | cons mk rest ih =>
    intro acc w h
    have hw : w < cap := by simp at h; omega
    have hstep : pushGuard cap mk (acc, w) = (acc ++ [mk w], w + 1) := by
      simp [pushGuard, hw]
    have h2 : (w + 1) + rest.length ≤ cap := by simp at h; omega
    have htail := ih (acc ++ [mk w]) (w + 1) h2
    simp only [pushAll, List.foldl_cons] at htail ⊢
    rw [hstep, htail]
    simp [applyIdx]
    omega

/-- Without any capacity assumption, every entry produced by the guarded
pushes is either pre-existing or comes from one of the makers. -/
theorem mem_pushAll (cap : Nat) (mks : List (Nat → LayoutEntry)) :
    ∀ (s : List LayoutEntry × Nat) (e : LayoutEntry), e ∈ (pushAll cap mks s).1 →
      e ∈ s.1 ∨ ∃ mk ∈ mks, ∃ w, e = mk w := by
  induction mks with
  | nil => intro s e he; exact Or.inl he
  | cons mk rest ih =>
    intro s e he
    simp only [pushAll, List.foldl_cons] at he
    rcases ih (pushGuard cap mk s) e he with hin | ⟨m, hm, w, hw⟩
    · unfold pushGuard at hin
      rcases s with ⟨acc, wi⟩
      by_cases hlt : wi < cap
      · simp [hlt] at hin
        rcases hin with h | h
        · exact Or.inl h
        · exact Or.inr ⟨mk, by simp, wi, h⟩
      · simp [hlt] at hin
        exact Or.inl hin
    · exact Or.inr ⟨m, by simp [hm], w, hw⟩

theorem length_flatMap_const {α β : Type} (l : List α) (f : α → List β) (k : Nat)
    (h : ∀ a ∈ l, (f a).length = k) : (l.flatMap f).length = l.length * k := by
  induction l with
  | nil => simp
  | cons a t ih =>
    have ha := h a (by simp)
    have ht := ih (fun x hx => h x (by simp [hx]))
    simp [ha, ht, Nat.succ_mul, Nat.add_comm]

theorem expMakers_length (groups timepoints : List String) (B T : Nat)
    (colors : List String) (config : PlateConfig) :
    (expMakers groups timepoints B T colors config).length
      = groups.length * timepoints.length * B * T := by
  unfold expMakers
  rw [length_flatMap_const _ _ (timepoints.length * B * T)]
  · rw [List.enum_length]; ring
  · intro g _
    rw [length_flatMap_const _ _ (B * T)]
    · ring
    · intro tp _
      rw [length_flatMap_const _ _ T]
      · simp
      · intro b _; simp

theorem ctrlMakers_length (timepoints : List String) (B T : Nat) (config : PlateConfig) :
    (ctrlMakers timepoints B T config).length = timepoints.length * B * T * 2 := by
  unfold ctrlMakers
  rw [length_flatMap_const _ _ (B * T * 2)]
  · ring
  · intro tp _
    rw [length_flatMap_const _ _ (T * 2)]
    · simp; ring
    · intro b _
      rw [length_flatMap_const _ _ 2]
      · simp
      · intro t _; rfl

theorem blankMakers_length (timepoints : List String) (T : Nat) (config : PlateConfig) :
    (blankMakers timepoints T config).length = timepoints.length * T := by
  unfold blankMakers
  rw [length_flatMap_const _ _ T]
  intro tp _; simp

theorem allMakers_length (groups timepoints : List String) (B T : Nat)
    (config : PlateConfig) (includeControls includeBlanks : Bool) (colors : List String) :
    (allMakers groups timepoints B T config includeControls includeBlanks colors).length
      = requiredWells groups timepoints B T includeControls includeBlanks := by
  unfold allMakers requiredWells
  cases includeControls <;> cases includeBlanks
  · simp [expMakers_length, ctrlMakers_length, blankMakers_length]
  · simp [expMakers_length, ctrlMakers_length, blankMakers_length]
  · simp [expMakers_length, ctrlMakers_length, blankMakers_length]
  · simp [expMakers_length, ctrlMakers_length, blankMakers_length]
    omega

/-- The main characterization: when the required count fits the plate, no
guard ever fires and the layout is exactly the makers applied to the
consecutive well indices starting at 0. -/
theorem generatePlateLayout_eq (groups timepoints : List String) (B T : Nat)
    (config : PlateConfig) (includeControls includeBlanks : Bool) (colors : List String)
    (h : requiredWells groups timepoints B T includeControls includeBlanks
      ≤ config.rows * config.cols) :
    generatePlateLayout groups timepoints B T config includeControls includeBlanks colors
      = applyIdx 0 (allMakers groups timepoints B T config includeControls includeBlanks colors) := by
  rw [generatePlateLayout_allMakers]
  rw [pushAll_eq _ _ [] 0 (by rw [allMakers_length]; omega)]
  simp

theorem mem_allMakers_well (groups timepoints : List String) (B T : Nat)
    (config : PlateConfig) (includeControls includeBlanks : Bool) (colors : List String) :
    ∀ mk ∈ allMakers groups timepoints B T config includeControls includeBlanks colors,
      ∀ w, (mk w).well = getWellName w config := by
  intro mk hmk w
  unfold allMakers at hmk
  rcases List.mem_append.1 hmk with h1 | h2
  · rcases List.mem_append.1 h1 with he | hc
    · unfold expMakers at he
      simp only [List.mem_flatMap, List.mem_map] at he
      obtain ⟨g, _, tp, _, b, _, t, _, rfl⟩ := he
      rfl
    · rcases includeControls with _ | _
      · simp at hc
      · simp only [if_true] at hc
        unfold ctrlMakers at hc
        simp only [List.mem_flatMap] at hc
        obtain ⟨tp, _, b, _, t, _, hmem⟩ := hc
        simp only [List.mem_cons, List.mem_singleton] at hmem
        rcases hmem with rfl | rfl | h
        · rfl
        · rfl
        · simp at h
  · rcases includeBlanks with _ | _
    · simp at h2
    · simp only [if_true] at h2
      unfold blankMakers at h2
      simp only [List.mem_flatMap, List.mem_map] at h2
      obtain ⟨tp, _, t, _, rfl⟩ := h2
      rfl

/-- Every maker of an allocation has one of the three literal shapes. -/
theorem allMakers_cases (groups timepoints : List String) (B T : Nat)
    (config : PlateConfig) (includeControls includeBlanks : Bool) (colors : List String) :
    ∀ mk ∈ allMakers groups timepoints B T config includeControls includeBlanks colors,
      (∃ p ∈ groups.enum, ∃ tp ∈ timepoints, ∃ b ∈ List.range B, ∃ t ∈ List.range T,
        mk = fun w =>
          { group := p.2, timepoint := tp, bioReplicate := b + 1, techReplicate := t + 1,
            well := getWellName w config, type := "experimental",
            color := colors.getD (p.1 % colors.length) "" })
      ∨ (∃ tp ∈ timepoints, ∃ b ∈ List.range B, ∃ t ∈ List.range T,
          (mk = fun w =>
            { group := "Positive Control", timepoint := tp, bioReplicate := b + 1,
              techReplicate := t + 1, well := getWellName w config,
              type := "control", color := "#f59e0b" })
          ∨ (mk = fun w =>
            { group := "Negative Control", timepoint := tp, bioReplicate := b + 1,
              techReplicate := t + 1, well := getWellName w config,
              type := "control", color := "#6b7280" }))
      ∨ (∃ tp ∈ timepoints, ∃ t ∈ List.range T,
          mk = fun w =>
            { group := "Blank", timepoint := tp, bioReplicate := 1, techReplicate := t + 1,
              well := getWellName w config, type := "blank", color := "#06b6d4" }) := by
  intro mk hmk
  unfold allMakers at hmk
  rcases List.mem_append.1 hmk with h1 | h2
  · rcases List.mem_append.1 h1 with he | hc
    · left
      unfold expMakers at he
      simp only [List.mem_flatMap, List.mem_map] at he
      obtain ⟨p, hp, tp, htp, b, hb, t, ht, rfl⟩ := he
      exact ⟨p, hp, tp, htp, b, hb, t, ht, rfl⟩
    · right; left
      rcases includeControls with _ | _
      · simp at hc
      · simp only [if_true] at hc
        unfold ctrlMakers at hc
        simp only [List.mem_flatMap] at hc
        obtain ⟨tp, htp, b, hb, t, ht, hmem⟩ := hc
        simp only [List.mem_cons, List.mem_singleton] at hmem
        rcases hmem with rfl | rfl | hfalse
        · exact ⟨tp, htp, b, hb, t, ht, Or.inl rfl⟩
        · exact ⟨tp, htp, b, hb, t, ht, Or.inr rfl⟩
        · simp at hfalse
  · right; right
    rcases includeBlanks with _ | _
    · simp at h2
    · simp only [if_true] at h2
      unfold blankMakers at h2
      simp only [List.mem_flatMap, List.mem_map] at h2
      obtain ⟨tp, htp, t, ht, rfl⟩ := h2
      exact ⟨tp, htp, t, ht, rfl⟩

/-! ### The data carried by a successful layout, matched to the spec order -/

theorem expMakers_map (groups timepoints : List String) (B T : Nat)
    (colors : List String) (config : PlateConfig) :
    (expMakers groups timepoints B T colors config).map (fun mk => entryData (mk 0))
      = groups.flatMap fun g => timepoints.flatMap fun tp =>
          (List.range B).flatMap fun b => (List.range T).map fun t =>
            (g, tp, b + 1, t + 1, "experimental") := by
  unfold expMakers
  conv_rhs => rw [← List.enum_map_snd groups]
  rw [List.flatMap_map]
  simp only [List.map_flatMap, List.map_map]
  rfl

theorem ctrlMakers_map (timepoints : List String) (B T : Nat) (config : PlateConfig) :
    (ctrlMakers timepoints B T config).map (fun mk => entryData (mk 0))
      = timepoints.flatMap fun tp =>
          (List.range B).flatMap fun b =>
            (List.range T).flatMap fun t =>
              [("Positive Control", tp, b + 1, t + 1, "control"),
               ("Negative Control", tp, b + 1, t + 1, "control")] := by
  unfold ctrlMakers
  simp only [List.map_flatMap, List.map_cons, List.map_nil]
  rfl

theorem blankMakers_map (timepoints : List String) (T : Nat) (config : PlateConfig) :
    (blankMakers timepoints T config).map (fun mk => entryData (mk 0))
      = timepoints.flatMap fun tp =>
          (List.range T).map fun t => ("Blank", tp, 1, t + 1, "blank") := by
  unfold blankMakers
  simp only [List.map_flatMap, List.map_map]
  rfl

theorem entryData_const (groups timepoints : List String) (B T : Nat)
    (config : PlateConfig) (includeControls includeBlanks : Bool) (colors : List String) :
    ∀ mk ∈ allMakers groups timepoints B T config includeControls includeBlanks colors,
      ∀ w, entryData (mk w) = entryData (mk 0) := by
  intro mk hmk w
  rcases allMakers_cases groups timepoints B T config includeControls includeBlanks colors
      mk hmk with ⟨p, _, tp, _, b, _, t, _, rfl⟩ | ⟨tp, _, b, _, t, _, rfl | rfl⟩ |
      ⟨tp, _, t, _, rfl⟩ <;> rfl

theorem layout_map_entryData (groups timepoints : List String) (B T : Nat)
    (config : PlateConfig) (includeControls includeBlanks : Bool) (colors : List String)
    (h : requiredWells groups timepoints B T includeControls includeBlanks
      ≤ config.rows * config.cols) :
    (generatePlateLayout groups timepoints B T config includeControls includeBlanks
        colors).map entryData
      = specOrder groups timepoints B T includeControls includeBlanks := by
  rw [generatePlateLayout_eq groups timepoints B T config includeControls includeBlanks colors h]
  rw [applyIdx_map entryData (fun mk => entryData (mk 0)) _
    (entryData_const groups timepoints B T config includeControls includeBlanks colors) 0]
  unfold allMakers specOrder
  rw [List.map_append, List.map_append]
  congr 1
  · congr 1
    · exact expMakers_map groups timepoints B T colors config
    · cases includeControls
      · simp
      · simpa using ctrlMakers_map timepoints B T config
  · cases includeBlanks
    · simp
    · simpa using blankMakers_map timepoints T config

theorem layout_length (groups timepoints : List String) (B T : Nat)
    (config : PlateConfig) (includeControls includeBlanks : Bool) (colors : List String)
    (h : requiredWells groups timepoints B T includeControls includeBlanks
      ≤ config.rows * config.cols) :
    (generatePlateLayout groups timepoints B T config includeControls includeBlanks
        colors).length
      = requiredWells groups timepoints B T includeControls includeBlanks := by
  rw [generatePlateLayout_eq groups timepoints B T config includeControls includeBlanks colors h,
    applyIdx_length, allMakers_length]

theorem layout_get_well (groups timepoints : List String) (B T : Nat)
    (config : PlateConfig) (includeControls includeBlanks : Bool) (colors : List String)
    (h : requiredWells groups timepoints B T includeControls includeBlanks
      ≤ config.rows * config.cols) :
    ∀ (i : Nat) (hi : i < (generatePlateLayout groups timepoints B T config
        includeControls includeBlanks colors).length),
      ((generatePlateLayout groups timepoints B T config includeControls includeBlanks
          colors).get ⟨i, hi⟩).well = getWellName i config := by
  have hEq := generatePlateLayout_eq groups timepoints B T config
    includeControls includeBlanks colors h
  intro i
  rw [hEq]
  intro hi
  have hi3 : i < (allMakers groups timepoints B T config
      includeControls includeBlanks colors).length := by
    rw [applyIdx_length] at hi; exact hi
  rw [applyIdx_get _ 0 i hi hi3,
    mem_allMakers_well groups timepoints B T config includeControls includeBlanks colors
      _ (List.get_mem _ _ _) (0 + i)]
  simp

theorem layout_map_well (groups timepoints : List String) (B T : Nat)
    (config : PlateConfig) (includeControls includeBlanks : Bool) (colors : List String)
    (h : requiredWells groups timepoints B T includeControls includeBlanks
      ≤ config.rows * config.cols) :
    (generatePlateLayout groups timepoints B T config includeControls includeBlanks
        colors).map (fun e => e.well)
      = (List.range (requiredWells groups timepoints B T includeControls
          includeBlanks)).map (fun i => getWellName i config) := by
  apply List.ext_get
  · simp [layout_length groups timepoints B T config includeControls includeBlanks colors h]
  · intro i h1 h2
    simp only [List.get_map]
    rw [layout_get_well groups timepoints B T config includeControls includeBlanks colors h]
    simp

/-! ### Injectivity of well names on a plate -/

/-- On a plate whose row labels are distinct single-character strings and
whose column numbers print injectively, two distinct in-range well indices
get distinct well names. -/
theorem getWellName_inj (config : PlateConfig)
    (hc : 0 < config.cols)
    (hlen : config.rowLabels.length = config.rows)
    (hnd : config.rowLabels.Nodup)
    (hsingle : ∀ s ∈ config.rowLabels, s.data.length = 1)
    (hrepr : ∀ a b : Nat, a < config.cols → b < config.cols →
      toString (a + 1) = toString (b + 1) → a = b)
    {i j : Nat} (hi : i < config.rows * config.cols) (hj : j < config.rows * config.cols)
    (heq : getWellName i config = getWellName j config) : i = j := by
  have hdi : i / config.cols < config.rowLabels.length := by
    rw [hlen]; exact (Nat.div_lt_iff_lt_mul hc).2 (by omega)
  have hdj : j / config.cols < config.rowLabels.length := by
    rw [hlen]; exact (Nat.div_lt_iff_lt_mul hc).2 (by omega)
  unfold getWellName at heq
  rw [List.getD_eq_get _ _ hdi, List.getD_eq_get _ _ hdj] at heq
  obtain ⟨ci, hci⟩ : ∃ c, (config.rowLabels.get ⟨i / config.cols, hdi⟩).data = [c] := by
    have := hsingle _ (List.get_mem _ _ hdi)
    rcases hx : (config.rowLabels.get ⟨i / config.cols, hdi⟩).data with _ | ⟨c, _ | _⟩
    · rw [hx] at this; simp at this
    · exact ⟨c, rfl⟩
    · rw [hx] at this; simp at this
  obtain ⟨cj, hcj⟩ : ∃ c, (config.rowLabels.get ⟨j / config.cols, hdj⟩).data = [c] := by
    have := hsingle _ (List.get_mem _ _ hdj)
    rcases hx : (config.rowLabels.get ⟨j / config.cols, hdj⟩).data with _ | ⟨c, _ | _⟩
    · rw [hx] at this; simp at this
    · exact ⟨c, rfl⟩
    · rw [hx] at this; simp at this
  have hdata : ci :: (toString (i % config.cols + 1)).data
      = cj :: (toString (j % config.cols + 1)).data := by
    have h2 := congrArg String.data heq
    rw [String.data_append, String.data_append, hci, hcj] at h2
    exact h2
  have hcc : ci = cj := by injection hdata
  have htail : (toString (i % config.cols + 1)).data
      = (toString (j % config.cols + 1)).data := by injection hdata
  have hrowsEq : i / config.cols = j / config.cols := by
    have hstr : config.rowLabels.get ⟨i / config.cols, hdi⟩
        = config.rowLabels.get ⟨j / config.cols, hdj⟩ := by
      apply String.ext
      rw [hci, hcj, hcc]
    have := (List.Nodup.get_inj_iff hnd).1 hstr
    exact congrArg Fin.val this
  have hmodEq : i % config.cols = j % config.cols := by
    apply hrepr _ _ (Nat.mod_lt _ hc) (Nat.mod_lt _ hc)
    exact String.ext htail
  calc i = config.cols * (i / config.cols) + i % config.cols := (Nat.div_add_mod i _).symm
    _ = config.cols * (j / config.cols) + j % config.cols := by rw [hrowsEq, hmodEq]
    _ = j := Nat.div_add_mod j _

/-- The structural facts about every catalog plate that well-name
injectivity needs, established by evaluation. -/
theorem plateCatalog_facts : ∀ config ∈ plateCatalog,
    0 < config.cols ∧ config.rowLabels.length = config.rows ∧ config.rowLabels.Nodup
      ∧ (∀ s ∈ config.rowLabels, s.data.length = 1)
      ∧ (∀ a : Nat, a < config.cols → ∀ b : Nat, b < config.cols →
          toString (a + 1) = toString (b + 1) → a = b) := by
  decide

theorem layout_wells_nodup (groups timepoints : List String) (B T : Nat)
    (config : PlateConfig) (includeControls includeBlanks : Bool) (colors : List String)
    (hcat : config ∈ plateCatalog)
    (h : requiredWells groups timepoints B T includeControls includeBlanks
      ≤ config.rows * config.cols) :
    ((generatePlateLayout groups timepoints B T config includeControls includeBlanks
        colors).map (fun e => e.well)).Nodup := by
  obtain ⟨hc, hlen, hnd, hsingle, hrepr⟩ := plateCatalog_facts config hcat
  rw [layout_map_well groups timepoints B T config includeControls includeBlanks colors h]
  refine (List.nodup_map_iff_inj_on (List.nodup_range _)).2 ?_
  intro x hx y hy hxy
  rw [List.mem_range] at hx hy
  exact getWellName_inj config hc hlen hnd hsingle
    (fun a b ha hb => hrepr a ha b hb) (by omega) (by omega) hxy

/-! ### The Fisher-Yates pass permutes the list -/

theorem get_cons_set_perm {α : Type} :
    ∀ (l : List α) (k : Nat) (hk : k < l.length) (b : α),
      List.Perm (l.get ⟨k, hk⟩ :: l.set k b) (b :: l) := by
  intro l
  induction l with
  | nil => intro k hk; simp at hk
  | cons a t ih =>
    intro k hk b
    cases k with
    | zero => exact List.Perm.swap b a t
    | succ n =>
      have hn : n < t.length := by simpa using hk
      have s1 : List.Perm (t.get ⟨n, hn⟩ :: a :: t.set n b)
          (a :: t.get ⟨n, hn⟩ :: t.set n b) := List.Perm.swap a _ _
      have s2 : List.Perm (a :: t.get ⟨n, hn⟩ :: t.set n b) (a :: b :: t) :=
        (ih n hn b).cons a
      have s3 : List.Perm (a :: b :: t) (b :: a :: t) := List.Perm.swap b a t
      exact (s1.trans s2).trans s3

theorem swapL_perm {α : Type} (l : List α) (i j : Nat) : List.Perm (swapL l i j) l := by
  unfold swapL
  split
  case isFalse => exact List.Perm.refl l
  case isTrue h =>
    obtain ⟨hi, hj⟩ := h
    by_cases hij : i = j
    · subst hij
      have h1 : (l.set i (l.get ⟨i, hj⟩)).set i (l.get ⟨i, hi⟩) = l.set i (l.get ⟨i, hi⟩) :=
        List.set_set _ _ _ _
      rw [h1]
      have h2 : l.set i (l.get ⟨i, hi⟩) = l := by
        apply List.ext_getElem (by simp)
        intro n h3 h4
        rcases eq_or_ne n i with rfl | hne
        · simp
        · rw [List.getElem_set_ne (fun hh => hne hh.symm) h3]
      rw [h2]
    · have hlen' : (l.set i (l.get ⟨j, hj⟩)).length = l.length := by simp
      have hj' : j < (l.set i (l.get ⟨j, hj⟩)).length := by omega
      have hgj : (l.set i (l.get ⟨j, hj⟩)).get ⟨j, hj'⟩ = l.get ⟨j, hj⟩ := by
        simp only [List.get_eq_getElem]
        rw [List.getElem_set_ne hij]
      have hA := get_cons_set_perm (l.set i (l.get ⟨j, hj⟩)) j hj' (l.get ⟨i, hi⟩)
      rw [hgj] at hA
      have hB := get_cons_set_perm l i hi (l.get ⟨j, hj⟩)
      exact (hA.trans hB).cons_inv

theorem fyAux_perm {α : Type} (js : Nat → Nat) :
    ∀ (i : Nat) (l : List α), List.Perm (fyAux js l i) l := by
  intro i
  induction i with
  | zero => intro l; exact List.Perm.refl l
  | succ n ih =>
    intro l
    exact (ih (swapL l (n + 1) (js (n + 1)))).trans (swapL_perm l (n + 1) (js (n + 1)))

theorem fisherYates_perm {α : Type} (js : Nat → Nat) (l : List α) :
    List.Perm (fisherYates js l) l :=
  fyAux_perm js (l.length - 1) l

/-! ### Reassigning the shuffled labels -/

theorem zipWith_setWell_map_well :
    ∀ (L : List LayoutEntry) (S : List String), S.length = L.length →
      (List.zipWith (fun e w => { e with well := w }) L S).map (fun e => e.well) = S := by
  intro L
  induction L with
  | nil =>
    intro S h
    cases S with
    | nil => rfl
    | cons s ss => simp at h
  | cons e t ih =>
    intro S h
    cases S with
    | nil => simp at h
    | cons s ss =>
      simp only [List.zipWith_cons_cons, List.map_cons]
      rw [ih ss (by simpa using h)]

theorem zipWith_setWell_map {β : Type} (f : LayoutEntry → β)
    (hf : ∀ e w, f { e with well := w } = f e) :
    ∀ (L : List LayoutEntry) (S : List String), S.length = L.length →
      (List.zipWith (fun e w => { e with well := w }) L S).map f = L.map f := by
  intro L
  induction L with
  | nil => intro S h; simp
  | cons e t ih =>
    intro S h
    cases S with
    | nil => simp at h
    | cons s ss =>
      simp only [List.zipWith_cons_cons, List.map_cons]
      rw [hf, ih ss (by simpa using h)]

theorem randomizeLayout_map_well (L : List LayoutEntry) (js : Nat → Nat) :
    (randomizeLayout L js).map (fun e => e.well)
      = fisherYates js (L.map (fun e => e.well)) := by
  unfold randomizeLayout
  apply zipWith_setWell_map_well
  calc (fisherYates js (L.map fun e => e.well)).length
      = (L.map fun e => e.well).length :=
        (fisherYates_perm js (L.map fun e => e.well)).length_eq
    _ = L.length := by simp

theorem randomizeLayout_map {β : Type} (f : LayoutEntry → β)
    (hf : ∀ e w, f { e with well := w } = f e) (L : List LayoutEntry) (js : Nat → Nat) :
    (randomizeLayout L js).map f = L.map f := by
  unfold randomizeLayout
  apply zipWith_setWell_map f hf
  calc (fisherYates js (L.map fun e => e.well)).length
      = (L.map fun e => e.well).length :=
        (fisherYates_perm js (L.map fun e => e.well)).length_eq
    _ = L.length := by simp

theorem randomizeLayout_wells_perm (L : List LayoutEntry) (js : Nat → Nat) :
    List.Perm ((randomizeLayout L js).map (fun e => e.well)) (L.map (fun e => e.well)) := by
  rw [randomizeLayout_map_well]
  exact fisherYates_perm js _

/-! ### Destructing a successful generateLayout call -/

theorem generateLayout_ok {groups timepoints : List String} {B T : Nat}
    {config : PlateConfig} {includeControls includeBlanks : Bool} {colors : List String}
    {randomize : Bool} {js : Nat → Nat} {L : List LayoutEntry}
    (h : generateLayout groups timepoints B T config includeControls includeBlanks
      colors randomize js = .ok L) :
    requiredWells groups timepoints B T includeControls includeBlanks
        ≤ config.rows * config.cols
      ∧ L = (if randomize then
          randomizeLayout (generatePlateLayout groups timepoints B T config
            includeControls includeBlanks colors) js
        else generatePlateLayout groups timepoints B T config
          includeControls includeBlanks colors) := by
  unfold generateLayout at h
  split at h
  next => exact absurd h (by simp)
  next =>
    split at h
    next => exact absurd h (by simp)
    next =>
      split at h
      next hcap => exact absurd h (by simp)
      next hcap =>
        refine ⟨by omega, ?_⟩
        injection h with h4
        exact h4.symm

/-! ### Branch selection lemmas for the parser -/

theorem parse_expo (s : String) (h0 : s.data.isEmpty = false)
    (he : (cleanChars s.data).contains 'e' = true) :
    parseScientificInput s = jsParseFloat (cleanChars s.data) := by
  have he' : 'e' ∈ cleanChars s.data := by simpa using he
  unfold parseScientificInput
  simp [h0, he']

theorem parse_power (s : String) (h0 : s.data.isEmpty = false)
    (he : (cleanChars s.data).contains 'e' = false)
    (hr : hasRun ['1', '0', '*', '*'] (cleanChars s.data) = true) :
    parseScientificInput s = evalPower (cleanChars s.data) := by
  have he' : 'e' ∉ cleanChars s.data := by simpa using he
  unfold parseScientificInput
  simp [h0, he', hr]

theorem parse_fallback (s : String) (h0 : s.data.isEmpty = false)
    (he : (cleanChars s.data).contains 'e' = false)
    (hr : hasRun ['1', '0', '*', '*'] (cleanChars s.data) = false) :
    parseScientificInput s = jsParseFloat (cleanChars s.data) := by
  have he' : 'e' ∉ cleanChars s.data := by simpa using he
  unfold parseScientificInput
  simp [h0, he', hr]

theorem jsParseFloat_eval (cs : List Char) (pos : Bool) (ip fp : List Char) (ex : Int)
    (h : scanFloat cs = some (pos, ip, fp, ex)) :
    jsParseFloat cs = finishNum (ratVal pos ip fp ex) := by
  unfold jsParseFloat
  rw [h]

theorem evalPower_eval (cs : List Char) (pos : Bool) (ip fp : List Char) (ex : Int)
    (h : scanPower cs = some (pos, ip, fp, ex)) :
    evalPower cs = if ratVal pos ip fp ex > maxDouble || ratVal pos ip fp ex < -maxDouble
      then .nan else .num (ratVal pos ip fp ex) := by
  unfold evalPower
  rw [h]

/-! ## The claims -/

/-- C5: the claim says the parser fails on every non-finite evaluation, in
particular on every mantissa-e-exponent input that overflows to Infinity.
The code violates this: the exponential branch returns parseFloat's value
with no finiteness check, so "1e999" comes back as Infinity, not as the
NaN failure value (the power-of-ten branch, by contrast, does check).
This theorem evaluates the embedded code at the failing input. -/
theorem claim_C5_eval : parseScientificInput "1e999" = JSNum.inf
    ∧ (parseScientificInput "1e999").isNaN = false := by
  have h : parseScientificInput "1e999" = JSNum.inf := ?_
  · exact ⟨h, by rw [h]; rfl⟩
  rw [parse_expo "1e999" (by decide) (by decide),
    show cleanChars "1e999".data = ['1', 'e', '9', '9', '9'] from by decide,
    jsParseFloat_eval _ true ['1'] [] 999 (by decide)]
  rw [ratVal, show digitsToNat ['1'] = 1 from by decide,
    show digitsToNat ([] : List Char) = 0 from rfl]
  norm_num [finishNum, maxDouble]

/-- C6: parsing the power-of-ten form "3×10^6" and the exponential form
"3e6" both succeed with exactly 3000000. -/
theorem claim_C6 : parseScientificInput "3×10^6" = JSNum.num 3000000
    ∧ parseScientificInput "3e6" = JSNum.num 3000000 := by
  constructor
  · rw [parse_power "3×10^6" (by decide) (by decide) (by decide),
      show cleanChars "3×10^6".data = ['3', '*', '1', '0', '*', '*', '6'] from by decide,
      evalPower_eval _ true ['3'] [] 6 (by decide)]
    rw [ratVal, show digitsToNat ['3'] = 3 from by decide,
      show digitsToNat ([] : List Char) = 0 from rfl]
    norm_num [maxDouble]
  · rw [parse_expo "3e6" (by decide) (by decide),
      show cleanChars "3e6".data = ['3', 'e', '6'] from by decide,
      jsParseFloat_eval _ true ['3'] [] 6 (by decide)]
    rw [ratVal, show digitsToNat ['3'] = 3 from by decide,
      show digitsToNat ([] : List Char) = 0 from rfl]
    norm_num [finishNum, maxDouble]

/-- C7: whenever the three inputs parse to positive numbers with the stock
concentration strictly above the target, the dilution result is exactly
stockVolume = target·finalVolume/stock, diluentVolume = finalVolume −
stockVolume, dilutionFactor = stock/target.  (The source takes the three
already-unitless field values; with both concentrations in the same unit
and the volume in µL, as in the claim's instance, no conversion is
involved.) -/
theorem claim_C7 (stockStr targetStr volumeStr : String) (a b v : ℚ)
    (hs : parseScientificInput stockStr = JSNum.num a)
    (ht : parseScientificInput targetStr = JSNum.num b)
    (hv : parseScientificInput volumeStr = JSNum.num v)
    (ha : 0 < a) (hb : 0 < b) (hv0 : 0 < v) (hlt : b < a) :
    calculateDilution stockStr targetStr volumeStr
      = .ok { stockVolume := JSNum.num (b * v / a),
              diluentVolume := JSNum.num (v - b * v / a),
              dilutionFactor := JSNum.num (a / b) } := by
  have hle : jsLe (JSNum.num a) (JSNum.num b) = false := by
    unfold jsLe
    exact decide_eq_false hlt.not_le
  simp only [calculateDilution, hs, ht, hv, JSNum.isNaN, Bool.or_self, Bool.or_false,
    Bool.false_eq_true, if_false, hle, jsMul, jsDiv, jsSub]
  rw [if_neg ha.ne', if_neg hb.ne']

/-- C7 witness: dilution("100", "10", "1000") = stock 100, diluent 900,
factor 10 (the claim's µM/µM/µL instance). -/
theorem claim_C7_witness :
    calculateDilution "100" "10" "1000"
      = .ok { stockVolume := JSNum.num 100, diluentVolume := JSNum.num 900,
              dilutionFactor := JSNum.num 10 } := by
  have hs : parseScientificInput "100" = JSNum.num 100 := by
    rw [parse_fallback "100" (by decide) (by decide) (by decide),
      show cleanChars "100".data = ['1', '0', '0'] from by decide,
      jsParseFloat_eval _ true ['1', '0', '0'] [] 0 (by decide)]
    rw [ratVal, show digitsToNat ['1', '0', '0'] = 100 from by decide,
      show digitsToNat ([] : List Char) = 0 from rfl]
    norm_num [finishNum, maxDouble]
  have ht : parseScientificInput "10" = JSNum.num 10 := by
    rw [parse_fallback "10" (by decide) (by decide) (by decide),
      show cleanChars "10".data = ['1', '0'] from by decide,
      jsParseFloat_eval _ true ['1', '0'] [] 0 (by decide)]
    rw [ratVal, show digitsToNat ['1', '0'] = 10 from by decide,
      show digitsToNat ([] : List Char) = 0 from rfl]
    norm_num [finishNum, maxDouble]
  have hv : parseScientificInput "1000" = JSNum.num 1000 := by
    rw [parse_fallback "1000" (by decide) (by decide) (by decide),
      show cleanChars "1000".data = ['1', '0', '0', '0'] from by decide,
      jsParseFloat_eval _ true ['1', '0', '0', '0'] [] 0 (by decide)]
    rw [ratVal, show digitsToNat ['1', '0', '0', '0'] = 1000 from by decide,
      show digitsToNat ([] : List Char) = 0 from rfl]
    norm_num [finishNum, maxDouble]
  have h := claim_C7 "100" "10" "1000" 100 10 1000 hs ht hv
    (by norm_num) (by norm_num) (by norm_num) (by norm_num)
  rw [h]
  norm_num

/-- C8 counterexample: the claim says any non-positive parsed input fails
with InvalidInput, but the source checks only for NaN and for stock ≤
target.  With stock −5 and target −10 (both parse, both non-positive,
and −5 > −10) the call produces a result instead of failing. -/
theorem claim_C8_counterexample :
    parseScientificInput "-5" = JSNum.num (-5)
      ∧ parseScientificInput "-10" = JSNum.num (-10)
      ∧ (-5 : ℚ) ≤ 0
      ∧ calculateDilution "-5" "-10" "100"
          = .ok { stockVolume := JSNum.num 200, diluentVolume := JSNum.num (-100),
                  dilutionFactor := JSNum.num (1 / 2) } := by
  have hs : parseScientificInput "-5" = JSNum.num (-5) := by
    rw [parse_fallback "-5" (by decide) (by decide) (by decide),
      show cleanChars "-5".data = ['-', '5'] from by decide,
      jsParseFloat_eval _ false ['5'] [] 0 (by decide)]
    rw [ratVal, show digitsToNat ['5'] = 5 from by decide,
      show digitsToNat ([] : List Char) = 0 from rfl]
    norm_num [finishNum, maxDouble]
  have ht : parseScientificInput "-10" = JSNum.num (-10) := by
    rw [parse_fallback "-10" (by decide) (by decide) (by decide),
      show cleanChars "-10".data = ['-', '1', '0'] from by decide,
      jsParseFloat_eval _ false ['1', '0'] [] 0 (by decide)]
    rw [ratVal, show digitsToNat ['1', '0'] = 10 from by decide,
      show digitsToNat ([] : List Char) = 0 from rfl]
    norm_num [finishNum, maxDouble]
  have hv : parseScientificInput "100" = JSNum.num 100 := by
    rw [parse_fallback "100" (by decide) (by decide) (by decide),
      show cleanChars "100".data = ['1', '0', '0'] from by decide,
      jsParseFloat_eval _ true ['1', '0', '0'] [] 0 (by decide)]
    rw [ratVal, show digitsToNat ['1', '0', '0'] = 100 from by decide,
      show digitsToNat ([] : List Char) = 0 from rfl]
    norm_num [finishNum, maxDouble]
  refine ⟨hs, ht, by norm_num, ?_⟩
  have hle : jsLe (JSNum.num (-5)) (JSNum.num (-10)) = false := by
    unfold jsLe
    exact decide_eq_false (by norm_num)
  simp only [calculateDilution, hs, ht, hv, JSNum.isNaN, Bool.or_self, Bool.or_false,
    Bool.false_eq_true, if_false, hle, jsMul, jsDiv, jsSub]
  rw [if_neg (by norm_num : (-5 : ℚ) ≠ 0), if_neg (by norm_num : (-10 : ℚ) ≠ 0)]
  norm_num

/-- C8 (amended): the call fails with InvalidInput exactly when some input
parses to NaN (unparseable); it fails with ConcentrationOrdering exactly
when all three parse to non-NaN values and stock ≤ target under the JS
comparison; no result is produced in either case.  Positivity of the
parsed values is NOT checked by the source, so non-positive inputs with
stock > target produce a result (see the counterexample). -/
theorem claim_C8 (stockStr targetStr volumeStr : String) :
    (calculateDilution stockStr targetStr volumeStr = .error .invalidInput
        ↔ ((parseScientificInput stockStr).isNaN || (parseScientificInput targetStr).isNaN
            || (parseScientificInput volumeStr).isNaN) = true)
      ∧ (calculateDilution stockStr targetStr volumeStr = .error .concentrationOrdering
          ↔ ((parseScientificInput stockStr).isNaN || (parseScientificInput targetStr).isNaN
              || (parseScientificInput volumeStr).isNaN) = false
            ∧ jsLe (parseScientificInput stockStr) (parseScientificInput targetStr) = true)
      ∧ ∀ err : DilutionError,
          calculateDilution stockStr targetStr volumeStr = .error err →
            ∀ r : DilutionResult, calculateDilution stockStr targetStr volumeStr ≠ .ok r := by
  unfold calculateDilution
  by_cases hnan : ((parseScientificInput stockStr).isNaN
      || (parseScientificInput targetStr).isNaN
      || (parseScientificInput volumeStr).isNaN) = true
  · rw [if_pos hnan]
    refine ⟨by simp [hnan], by simp [hnan], ?_⟩
    intro err _ r
    simp
  · rw [if_neg hnan]
    have hnan' : ((parseScientificInput stockStr).isNaN
        || (parseScientificInput targetStr).isNaN
        || (parseScientificInput volumeStr).isNaN) = false := by
      simpa using hnan
    by_cases hord : jsLe (parseScientificInput stockStr) (parseScientificInput targetStr) = true
    · rw [if_pos hord]
      refine ⟨by simp [hnan'], by simp [hnan', hord], ?_⟩
      intro err _ r
      simp
    · rw [if_neg hord]
      refine ⟨by simp only [reduceCtorEq, false_iff]; simpa using hnan', ?_, ?_⟩
      · simp only [reduceCtorEq, false_iff, not_and]
        intro _
        simpa using hord
      · intro err herr r
        simp at herr

/-- C8 witness at a concrete input. -/
theorem claim_C8_witness :
    (calculateDilution "5" "10" "100" = .error .invalidInput
        ↔ ((parseScientificInput "5").isNaN || (parseScientificInput "10").isNaN
            || (parseScientificInput "100").isNaN) = true)
      ∧ (calculateDilution "5" "10" "100" = .error .concentrationOrdering
          ↔ ((parseScientificInput "5").isNaN || (parseScientificInput "10").isNaN
              || (parseScientificInput "100").isNaN) = false
            ∧ jsLe (parseScientificInput "5") (parseScientificInput "10") = true)
      ∧ ∀ err : DilutionError,
          calculateDilution "5" "10" "100" = .error err →
            ∀ r : DilutionResult, calculateDilution "5" "10" "100" ≠ .ok r :=
  claim_C8 "5" "10" "100"

/-- C1 counterexample: the claim quantifies over every input and promises
a Layout whenever the required count fits, but with an empty group list
the source fails with its Missing Groups validation before the capacity
check, producing no Layout although required (0) ≤ available (6). -/
theorem claim_C1_counterexample :
    generateLayout [] ["T1"] 1 1 plate6 false false defaultColors false (fun _ => 0)
        = .error .missingGroups
      ∧ requiredWells [] ["T1"] 1 1 false false ≤ plate6.rows * plate6.cols
      ∧ (generateLayout [] ["T1"] 1 1 plate6 false false defaultColors false
          (fun _ => 0)).isOk = false := by
  exact ⟨rfl, by decide, rfl⟩

/-- C1 (amended): for every input with nonempty groups and timepoints,
generation fails with CapacityExceeded — carrying the required and
available counts — iff the required-well count (experimental + optional
controls + optional blanks) exceeds rows×cols, and otherwise a Layout is
produced. -/
theorem claim_C1 (groups timepoints : List String) (B T : Nat) (config : PlateConfig)
    (includeControls includeBlanks : Bool) (colors : List String)
    (randomize : Bool) (js : Nat → Nat) (hg : groups ≠ []) (ht : timepoints ≠ []) :
    ((∃ req avail, generateLayout groups timepoints B T config includeControls includeBlanks
          colors randomize js = .error (.capacityExceeded req avail))
        ↔ requiredWells groups timepoints B T includeControls includeBlanks
            > config.rows * config.cols)
      ∧ (requiredWells groups timepoints B T includeControls includeBlanks
            ≤ config.rows * config.cols →
          ∃ L, generateLayout groups timepoints B T config includeControls includeBlanks
            colors randomize js = .ok L)
      ∧ (∀ req avail, generateLayout groups timepoints B T config includeControls
            includeBlanks colors randomize js = .error (.capacityExceeded req avail) →
          req = requiredWells groups timepoints B T includeControls includeBlanks
            ∧ avail = config.rows * config.cols) := by
  have hg' : groups.isEmpty = false := by simpa using hg
  have ht' : timepoints.isEmpty = false := by simpa using ht
  unfold generateLayout
  rw [hg', ht']
  simp only [Bool.false_eq_true, if_false]
  by_cases hcap : requiredWells groups timepoints B T includeControls includeBlanks
      > config.rows * config.cols
  · rw [if_pos hcap]
    refine ⟨⟨fun _ => hcap, fun _ => ⟨_, _, rfl⟩⟩, fun hle => absurd hcap (by omega), ?_⟩
    intro req avail h
    injection h with h2
    injection h2 with h3 h4
    exact ⟨h3.symm, h4.symm⟩
  · rw [if_neg hcap]
    refine ⟨⟨?_, fun hgt => absurd hgt hcap⟩, fun _ => ⟨_, rfl⟩, ?_⟩
    · rintro ⟨req, avail, h⟩
      exact absurd h (by simp)
    · intro req avail h
      exact absurd h (by simp)

/-- C1 witness at a concrete in-capacity input. -/
theorem claim_C1_witness :
    ((∃ req avail, generateLayout ["G1"] ["T1"] 1 1 plate6 true false defaultColors false
          (fun _ => 0) = .error (.capacityExceeded req avail))
        ↔ requiredWells ["G1"] ["T1"] 1 1 true false > plate6.rows * plate6.cols)
      ∧ (requiredWells ["G1"] ["T1"] 1 1 true false ≤ plate6.rows * plate6.cols →
          ∃ L, generateLayout ["G1"] ["T1"] 1 1 plate6 true false defaultColors false
            (fun _ => 0) = .ok L)
      ∧ (∀ req avail, generateLayout ["G1"] ["T1"] 1 1 plate6 true false defaultColors false
            (fun _ => 0) = .error (.capacityExceeded req avail) →
          req = requiredWells ["G1"] ["T1"] 1 1 true false
            ∧ avail = plate6.rows * plate6.cols) :=
  claim_C1 ["G1"] ["T1"] 1 1 plate6 true false defaultColors false (fun _ => 0)
    (by decide) (by decide)

/-- C2: a successful un-randomized allocation carries exactly the
spec-ordered (group, timepoint, bioReplicate, techReplicate, type) data —
experimental block in groups/timepoints/bio/tech nesting, then the
control block with positive immediately before negative, then the blanks
with bioReplicate 1 — and its i-th entry sits on row-major well i
(row index i / cols, column index i mod cols + 1). -/
theorem claim_C2 (groups timepoints : List String) (B T : Nat) (config : PlateConfig)
    (includeControls includeBlanks : Bool) (colors : List String) (js : Nat → Nat)
    (L : List LayoutEntry)
    (h : generateLayout groups timepoints B T config includeControls includeBlanks colors
      false js = .ok L) :
    L.map entryData = specOrder groups timepoints B T includeControls includeBlanks
      ∧ ∀ (i : Nat) (hi : i < L.length), (L.get ⟨i, hi⟩).well = getWellName i config := by
  obtain ⟨hcap, hL⟩ := generateLayout_ok h
  simp only [Bool.false_eq_true, if_false] at hL
  subst hL
  exact ⟨layout_map_entryData groups timepoints B T config includeControls includeBlanks
      colors hcap,
    layout_get_well groups timepoints B T config includeControls includeBlanks colors hcap⟩

/-- The one-entry layout of the C2 witness input. -/
def c2Layout : List LayoutEntry :=
  [{ group := "G1", timepoint := "T1", bioReplicate := 1, techReplicate := 1,
     well := "A1", type := "experimental", color := "#2563eb" }]

/-- C2 witness at a concrete successful allocation. -/
theorem claim_C2_witness :
    c2Layout.map entryData = specOrder ["G1"] ["T1"] 1 1 false false
      ∧ ∀ (i : Nat) (hi : i < c2Layout.length),
          (c2Layout.get ⟨i, hi⟩).well = getWellName i plate6 :=
  claim_C2 ["G1"] ["T1"] 1 1 plate6 false false defaultColors (fun _ => 0) c2Layout rfl

/-- C3: in a successful allocation on a catalog plate no two entries share
a well, whether or not the optional randomization was applied. -/
theorem claim_C3 (groups timepoints : List String) (B T : Nat) (config : PlateConfig)
    (includeControls includeBlanks : Bool) (colors : List String)
    (randomize : Bool) (js : Nat → Nat) (L : List LayoutEntry)
    (hcat : config ∈ plateCatalog)
    (h : generateLayout groups timepoints B T config includeControls includeBlanks colors
      randomize js = .ok L) :
    L.Pairwise (fun a b => a.well ≠ b.well) := by
  obtain ⟨hcap, hL⟩ := generateLayout_ok h
  have hbase : ((generatePlateLayout groups timepoints B T config includeControls
      includeBlanks colors).map (fun e => e.well)).Nodup :=
    layout_wells_nodup groups timepoints B T config includeControls includeBlanks colors
      hcat hcap
  have hnodup : (L.map (fun e => e.well)).Nodup := by
    rcases randomize with _ | _
    · simp only [Bool.false_eq_true, if_false] at hL
      subst hL
      exact hbase
    · simp only [if_true] at hL
      subst hL
      exact ((randomizeLayout_wells_perm _ js).nodup_iff).2 hbase
  exact List.pairwise_map.mp hnodup

/-- The two-entry randomized layout of the C3 witness input: the shuffle
with drawn index 0 at step 1 swaps the two wells. -/
def c3Layout : List LayoutEntry :=
  [{ group := "G1", timepoint := "T1", bioReplicate := 1, techReplicate := 1,
     well := "A2", type := "experimental", color := "#2563eb" },
   { group := "G1", timepoint := "T1", bioReplicate := 1, techReplicate := 2,
     well := "A1", type := "experimental", color := "#2563eb" }]

/-- C3 witness at a concrete randomized allocation. -/
theorem claim_C3_witness : c3Layout.Pairwise (fun a b => a.well ≠ b.well) :=
  claim_C3 ["G1"] ["T1"] 1 2 plate6 false false defaultColors true (fun _ => 0) c3Layout
    (by decide) rfl

/-- C4: the shuffle preserves the multiset of well labels and the
(group, timepoint, bioReplicate, techReplicate) data of the entries in
their original order (hence their multiset), and the new well column is
exactly the Fisher-Yates pass (i from the last index down to 1, swapping
with the drawn index js i ≤ i) over the extracted labels, reassigned in
entry order. -/
theorem claim_C4 (L : List LayoutEntry) (js : Nat → Nat) (hjs : ∀ i, js i ≤ i) :
    ((((randomizeLayout L js).map (fun e => e.well)) : Multiset String)
        = ((L.map (fun e => e.well)) : Multiset String))
      ∧ ((randomizeLayout L js).map (fun e =>
            (e.group, e.timepoint, e.bioReplicate, e.techReplicate)))
          = (L.map (fun e => (e.group, e.timepoint, e.bioReplicate, e.techReplicate)))
      ∧ (randomizeLayout L js).map (fun e => e.well)
          = fisherYates js (L.map (fun e => e.well)) := by
  refine ⟨?_, ?_, randomizeLayout_map_well L js⟩
  · exact Multiset.coe_eq_coe.2 (randomizeLayout_wells_perm L js)
  · exact randomizeLayout_map
      (fun e => (e.group, e.timepoint, e.bioReplicate, e.techReplicate))
      (fun e w => rfl) L js

/-- C4 witness at a concrete layout and drawn-index stream. -/
theorem claim_C4_witness :
    ((((randomizeLayout c2Layout (fun _ => 0)).map (fun e => e.well)) : Multiset String)
        = ((c2Layout.map (fun e => e.well)) : Multiset String))
      ∧ ((randomizeLayout c2Layout (fun _ => 0)).map (fun e =>
            (e.group, e.timepoint, e.bioReplicate, e.techReplicate)))
          = (c2Layout.map (fun e => (e.group, e.timepoint, e.bioReplicate, e.techReplicate)))
      ∧ (randomizeLayout c2Layout (fun _ => 0)).map (fun e => e.well)
          = fisherYates (fun _ => 0) (c2Layout.map (fun e => e.well)) :=
  claim_C4 c2Layout (fun _ => 0) (fun i => Nat.zero_le i)

/-- C9 counterexample: the claim says every distinct label — synthetic
control/blank labels included — is colored from the palette by occurrence
order mod palette length.  With one group and controls on the default
palette, the second distinct label ("Positive Control", occurrence 1)
would have to get palette[1] = "#dc2626"; the source hard-codes "#f59e0b"
for it (and "#6b7280", "#06b6d4" for the other synthetics). -/
theorem claim_C9_counterexample :
    (generatePlateLayout ["G1"] ["T1"] 1 1 plate6 true false defaultColors).map
        (fun e => e.group) = ["G1", "Positive Control", "Negative Control"]
      ∧ (generatePlateLayout ["G1"] ["T1"] 1 1 plate6 true false defaultColors).map
          (fun e => e.color) = ["#2563eb", "#f59e0b", "#6b7280"]
      ∧ ((["#2563eb", "#f59e0b", "#6b7280"] : List String)
          == [defaultColors.getD (0 % defaultColors.length) "",
              defaultColors.getD (1 % defaultColors.length) "",
              defaultColors.getD (2 % defaultColors.length) ""]) = false := by
  decide

/-- C9 (amended): experimental entries of the i-th input group carry the
palette color at index i mod palette length (so colors repeat once the
group count exceeds the palette size); the synthetic labels are NOT
palette-indexed — control entries carry the fixed colors #f59e0b
(positive) / #6b7280 (negative) and blank entries the fixed #06b6d4. -/
theorem claim_C9 (groups timepoints : List String) (B T : Nat) (config : PlateConfig)
    (includeControls includeBlanks : Bool) (colors : List String) :
    ∀ e ∈ generatePlateLayout groups timepoints B T config includeControls
        includeBlanks colors,
      (e.type = "experimental" → ∃ i, ∃ hg : i < groups.length,
          e.group = groups.get ⟨i, hg⟩ ∧ e.color = colors.getD (i % colors.length) "")
      ∧ (e.type = "control" →
          (e.group = "Positive Control" ∧ e.color = "#f59e0b")
            ∨ (e.group = "Negative Control" ∧ e.color = "#6b7280"))
      ∧ (e.type = "blank" → e.group = "Blank" ∧ e.color = "#06b6d4") := by
  intro e he
  rw [generatePlateLayout_allMakers] at he
  rcases mem_pushAll _ _ _ e he with hin | ⟨mk, hmk, w, rfl⟩
  · simp at hin
  · rcases allMakers_cases groups timepoints B T config includeControls includeBlanks colors
        mk hmk with ⟨p, hp, tp, -, b, -, t, -, rfl⟩ | ⟨tp, -, b, -, t, -, rfl | rfl⟩ |
        ⟨tp, -, t, -, rfl⟩
    · refine ⟨?_, ?_, ?_⟩
      · intro _
        have h' := List.mem_enum_iff_getElem?.1 hp
        rw [List.getElem?_eq_some] at h'
        obtain ⟨hlt, hval⟩ := h'
        refine ⟨p.1, hlt, ?_, rfl⟩
        rw [List.get_eq_getElem, hval]
      · intro htype
        simp at htype
      · intro htype
        simp at htype
    · exact ⟨fun htype => by simp at htype, fun _ => Or.inl ⟨rfl, rfl⟩,
        fun htype => by simp at htype⟩
    · exact ⟨fun htype => by simp at htype, fun _ => Or.inr ⟨rfl, rfl⟩,
        fun htype => by simp at htype⟩
    · exact ⟨fun htype => by simp at htype, fun htype => by simp at htype,
        fun _ => ⟨rfl, rfl⟩⟩

/-- The positive-control entry of the C9 witness layout. -/
def c9Entry : LayoutEntry :=
  { group := "Positive Control", timepoint := "T1", bioReplicate := 1, techReplicate := 1,
    well := "A2", type := "control", color := "#f59e0b" }

/-- C9 witness at a concrete entry of a concrete layout. -/
theorem claim_C9_witness :
    (c9Entry.type = "experimental" → ∃ i, ∃ hg : i < (["G1"] : List String).length,
        c9Entry.group = (["G1"] : List String).get ⟨i, hg⟩
          ∧ c9Entry.color = defaultColors.getD (i % defaultColors.length) "")
      ∧ (c9Entry.type = "control" →
          (c9Entry.group = "Positive Control" ∧ c9Entry.color = "#f59e0b")
            ∨ (c9Entry.group = "Negative Control" ∧ c9Entry.color = "#6b7280"))
      ∧ (c9Entry.type = "blank" → c9Entry.group = "Blank" ∧ c9Entry.color = "#06b6d4") :=
  claim_C9 ["G1"] ["T1"] 1 1 plate6 true false defaultColors c9Entry (by decide)

/-- C10: under the capacity pre-check every row lookup while naming wells
is in bounds (floor(i/cols) < rows, and the row-label list is exactly rows
long on every catalog plate, so the indexing never misses), no per-entry
guard suppresses a push, and the layout has exactly the required number of
entries, the i-th carrying the in-bounds row label and 1-based column. -/
theorem claim_C10 (groups timepoints : List String) (B T : Nat) (config : PlateConfig)
    (includeControls includeBlanks : Bool) (colors : List String)
    (hcat : config ∈ plateCatalog)
    (hcap : requiredWells groups timepoints B T includeControls includeBlanks
      ≤ config.rows * config.cols) :
    (generatePlateLayout groups timepoints B T config includeControls includeBlanks
        colors).length = requiredWells groups timepoints B T includeControls includeBlanks
      ∧ ∀ (i : Nat) (hi : i < (generatePlateLayout groups timepoints B T config
          includeControls includeBlanks colors).length),
          i / config.cols < config.rows
          ∧ ∃ hrow : i / config.cols < config.rowLabels.length,
              ((generatePlateLayout groups timepoints B T config includeControls
                  includeBlanks colors).get ⟨i, hi⟩).well
                = config.rowLabels.get ⟨i / config.cols, hrow⟩
                    ++ toString (i % config.cols + 1) := by
  obtain ⟨hc, hlen, -, -, -⟩ := plateCatalog_facts config hcat
  refine ⟨layout_length groups timepoints B T config includeControls includeBlanks
    colors hcap, ?_⟩
  intro i hi
  have hi' : i < requiredWells groups timepoints B T includeControls includeBlanks := by
    rw [layout_length groups timepoints B T config includeControls includeBlanks
      colors hcap] at hi
    exact hi
  have hdiv : i / config.cols < config.rows := (Nat.div_lt_iff_lt_mul hc).2 (by omega)
  have hrow : i / config.cols < config.rowLabels.length := by rw [hlen]; exact hdiv
  refine ⟨hdiv, hrow, ?_⟩
  rw [layout_get_well groups timepoints B T config includeControls includeBlanks
    colors hcap i hi]
  unfold getWellName
  rw [List.getD_eq_get _ _ hrow]

/-- C10 witness at a concrete in-capacity allocation on the 96-well
plate. -/
theorem claim_C10_witness :
    (generatePlateLayout ["G1", "G2"] ["T1"] 2 3 plate96 true true
        defaultColors).length = requiredWells ["G1", "G2"] ["T1"] 2 3 true true
      ∧ ∀ (i : Nat) (hi : i < (generatePlateLayout ["G1", "G2"] ["T1"] 2 3 plate96 true true
          defaultColors).length),
          i / plate96.cols < plate96.rows
          ∧ ∃ hrow : i / plate96.cols < plate96.rowLabels.length,
              ((generatePlateLayout ["G1", "G2"] ["T1"] 2 3 plate96 true true
                  defaultColors).get ⟨i, hi⟩).well
                = plate96.rowLabels.get ⟨i / plate96.cols, hrow⟩
                    ++ toString (i % plate96.cols + 1) :=
  claim_C10 ["G1", "G2"] ["T1"] 2 3 plate96 true true defaultColors (by decide) (by decide)

end WellPlates
